import Mathlib

set_option maxRecDepth 20000

/-!
Verification of the tavily-cli search client's Redis cache layer.

The development shallowly embeds `src/search_client/storage/redis.py`
(the `RedisStorageBackend` class, run against the in-repo `MockRedisClient`
semantics for the Redis primitives) and `src/search_client/search.py`
(`get_cached_results` and `run_search`).  Python dicts are modelled as
association lists, JSON payloads as an inductive `Json` type (so that
`json.dumps`/`json.loads` round-tripping is the identity, which holds for
JSON-serializable dicts), time as integers, and fallible external effects
as `Except` values.
-/

namespace SearchClient

/-! ### Association-list primitives (Python `dict` semantics) -/

/-- Lookup in an association list (Python `d.get(k)` / `d[k]`). -/
def getA {α : Type} (k : String) : List (String × α) → Option α
  | [] => none
  | (k', v) :: rest => if k' = k then some v else getA k rest

/-- Update-or-append in an association list (Python `d[k] = v`). -/
def setA {α : Type} (k : String) (v : α) : List (String × α) → List (String × α)
  | [] => [(k, v)]
  | (k', v') :: rest => if k' = k then (k', v) :: rest else (k', v') :: setA k v rest

/-- Delete from an association list (Python `del d[k]`).  A dict holds each
key at most once, so removing the first occurrence matches `del`. -/
def delA {α : Type} (k : String) : List (String × α) → List (String × α)
  | [] => []
  | (k', v') :: rest => if k' = k then rest else (k', v') :: delA k rest

/-! ### JSON values -/

/-- JSON values, modelling the JSON-serializable Python dicts the client
stores.  `obj` fields behave as a Python dict (keys unique, insertion
order preserved). -/
inductive Json : Type where
  | str (s : String)
  | num (n : Int)
  | bool (b : Bool)
  | null
  | arr (elems : List Json)
  | obj (fields : List (String × Json))

/-- Python `d[k]` / `d.get(k)` on a JSON object. -/
def Json.getField (name : String) : Json → Option Json
  | .obj fields => getA name fields
  | _ => none

/-- Python `k in d` on a JSON object (false on non-dicts, where the code
path raises and the caller treats it identically to a miss). -/
def Json.hasField (name : String) (j : Json) : Bool :=
  (j.getField name).isSome

/-- Python `d[k] = v` on a JSON object (non-objects are left unchanged;
the code only ever assigns into dicts). -/
def Json.setField : Json → String → Json → Json
  | .obj fields, name, v => .obj (setA name v fields)
  | j, _, _ => j

/-! ### `_slugify` (redis.py, lines 176-179): text.lower().replace(" ", "-")[:50] -/

/-- `RedisStorageBackend._slugify`: `text.lower().replace(" ", "-")[:50]` —
lowercase, replace each space with a hyphen, truncate to 50 characters.
Strings are manipulated as their character lists (Python slicing and
`.replace` of a one-character pattern act per code point). -/
def slugify (text : String) : String :=
  String.mk (((text.data.map Char.toLower).map
    (fun c => if c = ' ' then '-' else c)).take 50)

/-! ### Redis state and primitives

The backend calls `set`/`get`/`expire`/`delete`/`zadd`/`zrangebyscore`/
`zrem`.  Their semantics follow the in-repo `MockRedisClient`
(redis.py, lines 17-102), the repository's own executable model of the
Redis server: lazy expiry on `get`, sorted sets as insertion-ordered
member/score mappings.  Timestamps (`time.time()`) are integers. -/

/-- The Redis server state: string keys to stored JSON documents (the
result of `json.dumps`), absolute expiry times, and sorted sets. -/
structure RedisSt : Type where
  data : List (String × Json)
  expiry : List (String × Int)
  zsets : List (String × List (String × Int))

/-- The empty Redis state. -/
def RedisSt.empty : RedisSt := ⟨[], [], []⟩

/-- `set(key, value)` (the backend never passes `ex` to `set`). -/
def rset (key : String) (value : Json) (s : RedisSt) : RedisSt :=
  { s with data := setA key value s.data }

/-- `get(key)` at time `now`: returns the value unless the key has
expired, in which case the key is lazily deleted and `None` returned. -/
def rget (now : Int) (key : String) (s : RedisSt) : Option Json × RedisSt :=
  match getA key s.data with
  | none => (none, s)
  | some v =>
    match getA key s.expiry with
    | some e =>
      if now > e then
        (none, { s with data := delA key s.data, expiry := delA key s.expiry })
      else (some v, s)
    | none => (some v, s)

/-- `expire(key, seconds)` at time `now`: set the key's expiry to
`now + seconds` when the key exists. -/
def rexpire (now : Int) (key : String) (seconds : Int) (s : RedisSt) : RedisSt :=
  if (getA key s.data).isSome then
    { s with expiry := setA key (now + seconds) s.expiry }
  else s

/-- `delete(key)`: remove the key and its expiry; returns the number of
keys removed (0 or 1). -/
def rdelete (key : String) (s : RedisSt) : Nat × RedisSt :=
  if (getA key s.data).isSome then
    (1, { s with data := delA key s.data, expiry := delA key s.expiry })
  else (0, s)

/-- Update-or-append of a member/score pair in a sorted set's mapping
(Python `dict.update`: an existing member keeps its position). -/
def zaddM (member : String) (score : Int) :
    List (String × Int) → List (String × Int) :=
  setA member score

/-- `zadd(key, {member: score})`. -/
def rzadd (key member : String) (score : Int) (s : RedisSt) : RedisSt :=
  { s with zsets := setA key (zaddM member score ((getA key s.zsets).getD [])) s.zsets }

/-- `zrem(key, member)`: remove the member's (unique) entry, if the
sorted set exists.  A dict holds each member at most once, so removing
all matching entries coincides with deleting the dict entry. -/
def rzrem (key member : String) (s : RedisSt) : RedisSt :=
  match getA key s.zsets with
  | none => s
  | some l => { s with zsets := setA key (l.filter (fun p => p.1 ≠ member)) s.zsets }

/-- `zrangebyscore(key, min_score, max_score)`: members whose score lies
in the inclusive range, in insertion order. -/
def zrangebyscore (key : String) (minS maxS : Int) (s : RedisSt) : List String :=
  (((getA key s.zsets).getD []).filter
    (fun p => decide (minS ≤ p.2) && decide (p.2 ≤ maxS))).map Prod.fst

/-- `zrangebyscore(key, min_score, float('inf'))`: no upper bound. -/
def zrangebyscoreInf (key : String) (minS : Int) (s : RedisSt) : List String :=
  (((getA key s.zsets).getD []).filter (fun p => decide (minS ≤ p.2))).map Prod.fst

/-! ### Timestamps -/

/-- A wall-clock instant as `datetime.now()` sees it. -/
structure DateTime : Type where
  year : Nat
  month : Nat
  day : Nat
  hour : Nat
  minute : Nat
  second : Nat

/-- Zero-padded two-digit field (`%m`, `%d`, `%H`, `%M`, `%S`). -/
def pad2 (n : Nat) : String :=
  if n < 10 then "0" ++ toString n else toString n

/-- Zero-padded four-digit year (`%Y`). -/
def pad4 (n : Nat) : String :=
  if n < 10 then "000" ++ toString n
  else if n < 100 then "00" ++ toString n
  else if n < 1000 then "0" ++ toString n
  else toString n

/-- `datetime.now().strftime("%Y%m%d-%H%M%S")`. -/
def fmtTimestamp (dt : DateTime) : String :=
  pad4 dt.year ++ pad2 dt.month ++ pad2 dt.day ++ "-" ++
    pad2 dt.hour ++ pad2 dt.minute ++ pad2 dt.second

/-- `datetime.now().isoformat()` (seconds precision suffices here; the
field is never inspected by the code under verification). -/
def isoTimestamp (dt : DateTime) : String :=
  pad4 dt.year ++ "-" ++ pad2 dt.month ++ "-" ++ pad2 dt.day ++ "T" ++
    pad2 dt.hour ++ ":" ++ pad2 dt.minute ++ ":" ++ pad2 dt.second

/-! ### RedisStorageBackend (redis.py, lines 105-384)

Each method is a state transformer on `RedisSt`.  `now : Int` stands for
`time.time()` and `dt : DateTime` for `datetime.now()` at the moment the
method runs. -/

/-- Backend configuration (`self.prefix`, `self.ttl_days`).  `pfx` is the
key prefix the Python code keeps in `self.prefix`. -/
structure RedisStorageBackend : Type where
  pfx : String
  ttl_days : Nat

/-- `_make_key`: `f"{self.prefix}{key_type}:{identifier}"`. -/
def make_key (b : RedisStorageBackend) (key_type identifier : String) : String :=
  b.pfx ++ key_type ++ ":" ++ identifier

/-- `save_results(query, results)` (redis.py, lines 181-245): store the
record under a timestamped identifier, set its TTL and index it in the
global and per-query sorted sets.  Returns the identifier. -/
def save_results (b : RedisStorageBackend) (dt : DateTime) (now : Int)
    (query : String) (results : Json) (s : RedisSt) : String × RedisSt :=
  let identifier := fmtTimestamp dt ++ "_" ++ slugify query
  let results_with_metadata : Json := .obj
    [("query", .str query), ("timestamp", .str (isoTimestamp dt)), ("results", results)]
  let result_key := make_key b "result" identifier
  let s := rset result_key results_with_metadata s
  let s := if b.ttl_days > 0 then
      rexpire now result_key ((b.ttl_days : Int) * 24 * 60 * 60) s
    else s
  let index_key := make_key b "index" "all"
  let s := rzadd index_key identifier now s
  let query_key := make_key b "query" (slugify query)
  let s := rzadd query_key identifier now s
  (identifier, s)

/-- `get_results(identifier)` (redis.py, lines 247-267): fetch and
deserialize the record, or `None` when absent/expired. -/
def get_results (b : RedisStorageBackend) (now : Int) (identifier : String)
    (s : RedisSt) : Option Json × RedisSt :=
  rget now (make_key b "result" identifier) s

/-- The loop body of `list_results`: fetch each identifier, keep the live
records, stamping each with its identifier (`result_data["id"] = identifier`). -/
def listLoop (b : RedisStorageBackend) (now : Int) :
    List String → RedisSt → List Json × RedisSt
  | [], s => ([], s)
  | identifier :: rest, s =>
    match get_results b now identifier s with
    | (some r, s') =>
      let (tl, s'') := listLoop b now rest s'
      ((r.setField "id" (.str identifier)) :: tl, s'')
    | (none, s') => listLoop b now rest s'

/-- `list_results(limit, offset, query)` (redis.py, lines 269-311): read
the per-query index when `query` is truthy (non-`None`, non-empty),
otherwise the global index; paginate, then fetch each record. -/
def list_results (b : RedisStorageBackend) (now : Int) (limit offset : Nat)
    (query : Option String) (s : RedisSt) : List Json × RedisSt :=
  let index_key := match query with
    | some q => if q ≠ "" then make_key b "query" (slugify q)
                else make_key b "index" "all"
    | none => make_key b "index" "all"
  let identifiers := zrangebyscoreInf index_key 0 s
  let identifiers := (identifiers.drop offset).take limit
  listLoop b now identifiers s

/-- The record's `"query"` field as the string `result_data.get("query", "")`
yields (records written by `save_results` always carry a string there). -/
def queryOf (r : Json) : String :=
  match r.getField "query" with
  | some (.str q) => q
  | _ => ""

/-- `delete_results(identifier)` (redis.py, lines 313-347): read the
record to recover its query, drop the identifier from the global index
and — only when the query is truthy — from the per-query index, then
delete the record key. -/
def delete_results (b : RedisStorageBackend) (now : Int) (identifier : String)
    (s : RedisSt) : Bool × RedisSt :=
  match get_results b now identifier s with
  | (none, s') => (false, s')
  | (some result_data, s') =>
    let query := queryOf result_data
    let s1 := rzrem (make_key b "index" "all") identifier s'
    let s2 := if query ≠ "" then
        rzrem (make_key b "query" (slugify query)) identifier s1
      else s1
    let (deleted, s3) := rdelete (make_key b "result" identifier) s2
    (decide (deleted > 0), s3)

/-- The loop of `cleanup`: delete each identifier, counting successes. -/
def cleanupLoop (b : RedisStorageBackend) (now : Int) :
    List String → RedisSt → Nat × RedisSt
  | [], s => (0, s)
  | identifier :: rest, s =>
    match delete_results b now identifier s with
    | (true, s') =>
      let (c, s'') := cleanupLoop b now rest s'
      (c + 1, s'')
    | (false, s') => cleanupLoop b now rest s'

/-- `cleanup(max_age_days)` (redis.py, lines 349-384): delete everything
whose global-index score lies in `[0, now - max_age_days*86400]` and
return the number of successful deletions.  Run against the mock-Redis
semantics no exception can occur; `cleanup_model` below additionally
models the exception paths. -/
def cleanup (b : RedisStorageBackend) (now : Int) (max_age_days : Nat)
    (s : RedisSt) : Nat × RedisSt :=
  let cutoff := now - (max_age_days : Int) * 24 * 60 * 60
  let index_key := make_key b "index" "all"
  let old_results := zrangebyscore index_key 0 cutoff s
  if old_results = [] then (0, s)
  else cleanupLoop b now old_results s

/-! ### `cleanup` with fallible effects (error-handling contract)

`delete_results` re-raises Redis errors as `StorageError`, and the index
range query itself can raise.  To settle the error-handling claims the
two effectful steps of `cleanup` are abstracted as `Except` outcomes:
`index_query` is the result of the `zrangebyscore` call and `del_outcome`
the result of each `delete_results` call inside the loop.  The `try`
block either produces a count or propagates the first exception; the
surrounding `except` turns any exception into a return value of `0`. -/

/-- The counting loop of `cleanup` with fallible deletes: stops at the
first raised exception, otherwise counts the `True` outcomes. -/
def cleanupCount (del_outcome : String → Except Unit Bool) :
    List String → Except Unit Nat
  | [] => .ok 0
  | identifier :: rest => do
    let ok ← del_outcome identifier
    let c ← cleanupCount del_outcome rest
    return (if ok then 1 else 0) + c

/-- The body of `cleanup`'s `try` block. -/
def cleanupTry (index_query : Except Unit (List String))
    (del_outcome : String → Except Unit Bool) : Except Unit Nat := do
  let old_results ← index_query
  if old_results = [] then return 0
  cleanupCount del_outcome old_results

/-- `cleanup` with its `except Exception: return 0` handler: never raises. -/
def cleanup_model (index_query : Except Unit (List String))
    (del_outcome : String → Except Unit Bool) : Nat :=
  match cleanupTry index_query del_outcome with
  | .error _ => 0
  | .ok n => n

/-! ### The search gateway (search.py)

`get_cached_results` and `run_search` interact with three external
effects: the Redis cache lookup (`list_results(query=query, limit=1)`),
the Tavily HTTP API, and the cache write (`save_results`).  Each is a
parameter: `lookup` is the outcome of the cache lookup (`.error` when
consulting the cache raises), `response` the API response, and
`save_outcome` the outcome of the cache write.  The model records
whether the outbound API call was made and whether the response was
saved to the cache. -/

/-- What a `run_search` call produced: the returned payload, whether the
external Tavily API was called, and whether the result was saved to the
cache. -/
structure SearchOutcome : Type where
  response : Json
  apiCalled : Bool
  savedToCache : Bool

/-- `get_cached_results` (search.py, lines 40-91): take the first record
of the per-query listing; it is a hit only when the record's `results`
payload itself has a `"results"` key, in which case that payload is
returned with `_from_cache = True`.  Any exception while consulting the
cache (the `lookup = .error` case) is caught and reported as a miss. -/
def get_cached_results (lookup : Except Unit (List Json)) :
    Bool × Option Json :=
  match lookup with
  | .error _ => (false, none)
  | .ok cached_results =>
    match cached_results with
    | [] => (false, none)
    | cached_data :: _ =>
      match cached_data.getField "results" with
      | some result =>
        if result.hasField "results" then
          (true, some (result.setField "_from_cache" (.bool true)))
        else (false, none)
      | none => (false, none)

/-- `run_search` (search.py, lines 94-188): consult the cache first and
return a hit untouched; on a miss require the API key, call the API,
and — only when the response has a `"results"` key — mark it
`_from_cache = False` and try to save it, swallowing any save error. -/
def run_search (lookup : Except Unit (List Json)) (api_key_present : Bool)
    (response : Json) (save_outcome : Except Unit Unit) :
    Except Unit SearchOutcome :=
  match get_cached_results lookup with
  | (true, some cached_results) => .ok ⟨cached_results, false, false⟩
  | _ =>
    if !api_key_present then .error ()  -- validate_api_key raises SearchError
    else if response.hasField "results" then
      let response := response.setField "_from_cache" (.bool false)
      -- save failure is caught and logged; the fresh response is returned
      .ok ⟨response, true, save_outcome.isOk⟩
    else .ok ⟨response, true, false⟩

/-! ### Shared concrete fixtures -/

/-- A backend with the default configuration (`prefix="web-search:"`,
`ttl_days=14`). -/
def bDefault : RedisStorageBackend := ⟨"web-search:", 14⟩

/-- A backend configured with `ttl_days=1`, as in the spec's TTL scenario
and the test fixtures. -/
def bTtl1 : RedisStorageBackend := ⟨"web-search:", 1⟩

/-- A sample wall-clock instant. -/
def dt0 : DateTime := ⟨2025, 1, 1, 12, 0, 0⟩

/-- Whether a `delete_results` outcome counts as a successful deletion
(`True` returned, no exception). -/
def delOk : Except Unit Bool → Bool
  | .ok b => b
  | .error _ => false

/-- A per-item delete behaviour where item `"b"` raises a backend error
and every other item deletes successfully. -/
def delWithError (identifier : String) : Except Unit Bool :=
  if identifier = "b" then .error () else .ok true

/-- The index updates `delete_results` performs before deleting the
record key: drop the identifier from the global index and, when the
record's query is truthy, from the per-query index. -/
def dropFromIndexes (b : RedisStorageBackend) (identifier query : String)
    (s : RedisSt) : RedisSt :=
  if query ≠ "" then
    rzrem (make_key b "query" (slugify query)) identifier
      (rzrem (make_key b "index" "all") identifier s)
  else rzrem (make_key b "index" "all") identifier s

/-- A store holding three freshly-saved records (saved at times 1, 2 and
3 under three distinct queries). -/
def sC8 : RedisSt :=
  (save_results bDefault ⟨2025, 1, 1, 12, 0, 3⟩ 3 "gamma" (Json.obj [])
    (save_results bDefault ⟨2025, 1, 1, 12, 0, 2⟩ 2 "beta" (Json.obj [])
      (save_results bDefault ⟨2025, 1, 1, 12, 0, 1⟩ 1 "alpha" (Json.obj [])
        RedisSt.empty).2).2).2


/-! ### Association-list lemmas -/

@[simp] theorem getA_setA_eq {α : Type} (k : String) (v : α) (l : List (String × α)) :
    getA k (setA k v l) = some v := by
  induction l with
  | nil => simp [getA, setA]
  | cons p rest ih =>
    by_cases h : p.1 = k <;> simp [getA, setA, h, ih]

theorem getA_setA_ne {α : Type} {k k' : String} (h : k' ≠ k) (v : α)
    (l : List (String × α)) : getA k (setA k' v l) = getA k l := by
  induction l with
  | nil => simp [getA, setA, h]
  | cons p rest ih =>
    by_cases hp : p.1 = k'
    · have hk : p.1 ≠ k := fun hk => h (hp ▸ hk)
      simp [getA, setA, hp, hk, h]
    · simp [getA, setA, hp, ih]

theorem getA_delA_ne {α : Type} {k k' : String} (h : k' ≠ k)
    (l : List (String × α)) : getA k (delA k' l) = getA k l := by
  induction l with
  | nil => simp [delA]
  | cons p rest ih =>
    by_cases hp : p.1 = k'
    · have hk : p.1 ≠ k := fun hk => h (hp ▸ hk)
      simp [getA, delA, hp, hk, h]
    · simp [getA, delA, hp, ih]

/-! ### Claims -/

/-- C1: the spec requires that every identifier in any per-query index is
also in the global index and that both reference a live record, at every
state reachable by save/fetch/list/delete/evict — in particular for
records whose query is empty.  The code violates this: `delete_results`
skips the per-query `zrem` when the record's query is falsy (`if query:`),
yet `save_results` had indexed the record under the empty slug.  Saving
with query `""` and then deleting the returned identifier leaves the
per-query index `query:` still holding the identifier while the global
index entry and the record itself are gone. -/
theorem C1_empty_query_delete_orphans_index :
    (delete_results bDefault 100
        (save_results bDefault dt0 100 "" (Json.obj []) RedisSt.empty).1
        (save_results bDefault dt0 100 "" (Json.obj []) RedisSt.empty).2).1 = true ∧
    getA (make_key bDefault "query" (slugify ""))
      (delete_results bDefault 100
        (save_results bDefault dt0 100 "" (Json.obj []) RedisSt.empty).1
        (save_results bDefault dt0 100 "" (Json.obj []) RedisSt.empty).2).2.zsets
      = some [("20250101-120000_", 100)] ∧
    getA (make_key bDefault "index" "all")
      (delete_results bDefault 100
        (save_results bDefault dt0 100 "" (Json.obj []) RedisSt.empty).1
        (save_results bDefault dt0 100 "" (Json.obj []) RedisSt.empty).2).2.zsets
      = some [] ∧
    (rget 100 (make_key bDefault "result" "20250101-120000_")
      (delete_results bDefault 100
        (save_results bDefault dt0 100 "" (Json.obj []) RedisSt.empty).1
        (save_results bDefault dt0 100 "" (Json.obj []) RedisSt.empty).2).2).1.isNone
      = true := by
  decide

/-- C3: the spec (and the repo's own tests `test_get_results` and
`test_cache_hit_extends_ttl`) say a successful fetch refreshes the
record's expiry to the full configured TTL.  The code's `get_results`
only reads the key and never calls `expire`: after saving at time 0 with
`ttl_days=1` (expiry 86400) a successful fetch at time 1000 leaves the
expiry map untouched, so the remaining TTL is 85400, not the full
86400-second window the claim requires (expiry would have to be
1000 + 86400). -/
theorem C3_get_does_not_refresh_ttl :
    (get_results bTtl1 1000
        (save_results bTtl1 dt0 0 "q" (Json.obj []) RedisSt.empty).1
        (save_results bTtl1 dt0 0 "q" (Json.obj []) RedisSt.empty).2).1.isSome = true ∧
    (get_results bTtl1 1000
        (save_results bTtl1 dt0 0 "q" (Json.obj []) RedisSt.empty).1
        (save_results bTtl1 dt0 0 "q" (Json.obj []) RedisSt.empty).2).2.expiry
      = (save_results bTtl1 dt0 0 "q" (Json.obj []) RedisSt.empty).2.expiry ∧
    getA (make_key bTtl1 "result" (save_results bTtl1 dt0 0 "q" (Json.obj []) RedisSt.empty).1)
      (save_results bTtl1 dt0 0 "q" (Json.obj []) RedisSt.empty).2.expiry = some 86400 ∧
    getA (make_key bTtl1 "result" (save_results bTtl1 dt0 0 "q" (Json.obj []) RedisSt.empty).1)
      (get_results bTtl1 1000
        (save_results bTtl1 dt0 0 "q" (Json.obj []) RedisSt.empty).1
        (save_results bTtl1 dt0 0 "q" (Json.obj []) RedisSt.empty).2).2.expiry
      ≠ some (1000 + 1 * 24 * 60 * 60) := by
  decide

/-- C4: the spec (and the repo's own test `test_slugify`, which asserts
`_slugify("Hello, World!") == "hello-world"`) describe `slugify` as
collapsing runs of non-alphanumeric characters to single hyphens and
stripping leading/trailing hyphens.  The code only lowercases, replaces
spaces and truncates: it returns `"hello,-world!"` (commas and bangs
survive) and `"-a"` (leading hyphen kept), contradicting the tests. -/
theorem C4_slugify_contradicts_tests :
    slugify "Hello, World!" = "hello,-world!" ∧
    slugify "Hello, World!" ≠ "hello-world" ∧
    slugify " a" = "-a" ∧
    slugify "special@#$%^chars" ≠ "special-chars" := by
  decide

/-- C2 (counterexample): the claim says a record returned by the
per-query list with limit 1 is always served as a cache hit with no
outbound call.  But `get_cached_results` additionally requires the
record's `results` payload to contain a `"results"` key: after saving
query `"q"` with payload `{}` the listing returns that record, yet
`run_search` still makes the outbound API call. -/
theorem C2_counterexample :
    ((list_results bDefault 100 1 0 (some "q")
        (save_results bDefault dt0 100 "q" (Json.obj []) RedisSt.empty).2).1).length = 1 ∧
    ((run_search
        (.ok (list_results bDefault 100 1 0 (some "q")
          (save_results bDefault dt0 100 "q" (Json.obj []) RedisSt.empty).2).1)
        true (Json.obj [("results", Json.arr [])]) (.ok ())).toOption.map
      SearchOutcome.apiCalled) = some true := by
  constructor
  · rfl
  · rfl

/-- C2 (amended): if the per-query list with limit 1 returns a record
whose `results` payload itself contains a `"results"` key, `run_search`
returns that payload marked `_from_cache = True` and makes no outbound
call (and writes nothing to the cache).  Records whose payload lacks a
`"results"` key are treated as a cache miss. -/
theorem C2_cache_hit_short_circuits
    (b : RedisStorageBackend) (now : Int) (s : RedisSt) (q : String)
    (record result response : Json) (api_key_present : Bool)
    (save_outcome : Except Unit Unit)
    (hlist : (list_results b now 1 0 (some q) s).1 = [record])
    (hres : record.getField "results" = some result)
    (hkey : result.hasField "results" = true) :
    run_search (.ok (list_results b now 1 0 (some q) s).1) api_key_present
        response save_outcome
      = .ok ⟨result.setField "_from_cache" (.bool true), false, false⟩ := by
  simp [run_search, get_cached_results, hlist, hres, hkey]

/-- C2 (witness): instantiates the amended cache-hit theorem on a store
holding one record for `"q"` whose payload is `{"results": []}`. -/
theorem C2_cache_hit_short_circuits_witness :
    run_search
        (.ok (list_results bDefault 200 1 0 (some "q")
          (save_results bDefault dt0 100 "q" (Json.obj [("results", Json.arr [])])
            RedisSt.empty).2).1)
        true (Json.obj []) (.ok ())
      = .ok ⟨(Json.obj [("results", Json.arr [])]).setField "_from_cache" (.bool true),
          false, false⟩ :=
  C2_cache_hit_short_circuits bDefault 200
    (save_results bDefault dt0 100 "q" (Json.obj [("results", Json.arr [])])
      RedisSt.empty).2 "q"
    (Json.obj [("query", .str "q"), ("timestamp", .str (isoTimestamp dt0)),
      ("results", Json.obj [("results", Json.arr [])]),
      ("id", .str "20250101-120000_q")])
    (Json.obj [("results", Json.arr [])]) (Json.obj []) true (.ok ())
    rfl rfl rfl

/-- C5 (counterexample): the claim says a failure while deleting one item
merely reduces the count and does not abort the rest of the batch.  In
the code a per-item `delete_results` that raises propagates to
`cleanup`'s outer handler: with items `["a", "b", "c"]` where `"a"` and
`"c"` delete successfully and `"b"` raises, the whole operation returns
0 — the two successes are not counted and the batch is aborted. -/
theorem C5_counterexample :
    cleanup_model (.ok ["a", "b", "c"]) delWithError = 0 ∧
    delOk (delWithError "a") = true ∧
    delOk (delWithError "c") = true ∧
    (delWithError "b").isOk = false := by
  exact ⟨rfl, rfl, rfl, rfl⟩

/-- C5 (amended): `cleanup` never raises.  A backend-level failure of the
index range query makes the whole operation return 0; when no per-item
delete raises, a delete that merely reports `False` reduces the count
without aborting the batch (the result counts exactly the successful
deletions); but a per-item delete that raises a backend error aborts the
rest of the batch and the whole operation returns 0. -/
theorem C5_cleanup_error_contract (del_outcome : String → Except Unit Bool)
    (olds : List String) :
    cleanup_model (.error ()) del_outcome = 0 ∧
    ((∀ identifier ∈ olds, (del_outcome identifier).isOk = true) →
      cleanup_model (.ok olds) del_outcome
        = olds.countP (fun identifier => delOk (del_outcome identifier))) ∧
    ((∃ identifier ∈ olds, (del_outcome identifier).isOk = false) →
      cleanup_model (.ok olds) del_outcome = 0) := by
  refine ⟨rfl, ?_, ?_⟩
  · intro hall
    have key : ∀ l, (∀ identifier ∈ l, (del_outcome identifier).isOk = true) →
        cleanupCount del_outcome l
          = .ok (l.countP (fun identifier => delOk (del_outcome identifier))) := by
      intro l
      induction l with
      | nil => intro _; rfl
      | cons x rest ih =>
        intro h
        have hx := h x (List.mem_cons_self x rest)
        have hrest := ih (fun y hy => h y (List.mem_cons_of_mem x hy))
        cases hfx : del_outcome x with
        | error e => rw [hfx] at hx; simp [Except.isOk, Except.toBool] at hx
        | ok bx =>
          simp only [cleanupCount, hfx, hrest, List.countP_cons, delOk,
            Except.bind, bind]
          cases bx <;> simp [delOk, hfx, Nat.add_comm, pure, Except.pure]
    cases holds : olds with
    | nil => rfl
    | cons x rest =>
      have := key olds hall
      simp only [cleanup_model, cleanupTry, holds] at this ⊢
      simp [bind, Except.bind, pure, Except.pure, this]
  · intro ⟨identifier, hmem, herr⟩
    have key : ∀ l, (∃ y ∈ l, (del_outcome y).isOk = false) →
        cleanupCount del_outcome l = .error () := by
      intro l
      induction l with
      | nil => intro ⟨y, hy, _⟩; cases hy
      | cons x rest ih =>
        intro ⟨y, hy, hyf⟩
        cases hfx : del_outcome x with
        | error e => simp [cleanupCount, hfx, bind, Except.bind]
        | ok bx =>
          rcases List.mem_cons.mp hy with hyx | hyr
          · rw [hyx, hfx] at hyf; simp [Except.isOk, Except.toBool] at hyf
          · have := ih ⟨y, hyr, hyf⟩
            simp [cleanupCount, hfx, bind, Except.bind, this]
    have hne : olds ≠ [] := by
      intro h; rw [h] at hmem; cases hmem
    have := key olds ⟨identifier, hmem, herr⟩
    simp [cleanup_model, cleanupTry, bind, Except.bind, pure, Except.pure, hne, this]

/-- C5 (witness): instantiates the cleanup error contract — an index
failure yields 0; the batch `["a", "c"]` (no raises) counts its two
successes; the batch `["a", "b", "c"]`, where `"b"` raises, yields 0. -/
theorem C5_cleanup_error_contract_witness :
    cleanup_model (.error ()) delWithError = 0 ∧
    cleanup_model (.ok ["a", "c"]) delWithError
      = List.countP (fun identifier => delOk (delWithError identifier)) ["a", "c"] ∧
    cleanup_model (.ok ["a", "b", "c"]) delWithError = 0 :=
  ⟨(C5_cleanup_error_contract delWithError []).1,
   (C5_cleanup_error_contract delWithError ["a", "c"]).2.1 (by decide),
   (C5_cleanup_error_contract delWithError ["a", "b", "c"]).2.2
     ⟨"b", by decide, by decide⟩⟩

/-- C6: any error while consulting the cache is treated by the gateway as
a cache miss and not propagated (the search proceeds to the API), and a
failure to save a successful API response to the cache is swallowed: the
fresh response, marked `_from_cache = False`, is still returned. -/
theorem C6_gateway_swallows_cache_errors
    (response : Json) (save_outcome : Except Unit Unit)
    (hresp : response.hasField "results" = true) :
    get_cached_results (.error ()) = (false, none) ∧
    run_search (.error ()) true response save_outcome
      = .ok ⟨response.setField "_from_cache" (.bool false), true, save_outcome.isOk⟩ ∧
    run_search (.error ()) true response (.error ())
      = .ok ⟨response.setField "_from_cache" (.bool false), true, false⟩ := by
  refine ⟨rfl, ?_, ?_⟩ <;> simp [run_search, get_cached_results, hresp, Except.isOk, Except.toBool]

/-- C6 (witness): instantiates the error-swallowing theorem on a response
`{"results": []}` with a failing cache read and a failing cache write. -/
theorem C6_gateway_swallows_cache_errors_witness :
    get_cached_results (.error ()) = (false, none) ∧
    run_search (.error ()) true (Json.obj [("results", Json.arr [])]) (.error ())
      = .ok ⟨(Json.obj [("results", Json.arr [])]).setField "_from_cache" (.bool false),
          true, false⟩ :=
  ⟨(C6_gateway_swallows_cache_errors (Json.obj [("results", Json.arr [])])
      (.error ()) rfl).1,
   (C6_gateway_swallows_cache_errors (Json.obj [("results", Json.arr [])])
      (.error ()) rfl).2.2⟩

/-- C9: `list_results` treats the empty-string query filter exactly like
`query=None` — the `if query:` truthiness check sends both to the global
index — so filtering by `""` returns records of all queries (concretely:
after saving under `"alpha"` and `"beta"`, listing with query `""`
returns both records). -/
theorem C9_empty_query_filter_uses_global_index
    (b : RedisStorageBackend) (now : Int) (limit offset : Nat) (s : RedisSt) :
    list_results b now limit offset (some "") s
      = list_results b now limit offset none s ∧
    ((list_results bDefault 300 10 0 (some "")
        (save_results bDefault dt0 200 "beta" (Json.obj [])
          (save_results bDefault dt0 100 "alpha" (Json.obj []) RedisSt.empty).2).2).1).length
      = 2 := by
  constructor
  · rfl
  · rfl

/-- C10: when the external API response has no `"results"` key,
`run_search` (on a cache miss) returns the response unchanged — the
`_from_cache` flag is not set — and does not save it to the cache. -/
theorem C10_no_results_key_passthrough
    (lookup : Except Unit (List Json)) (response : Json)
    (save_outcome : Except Unit Unit)
    (hmiss : get_cached_results lookup = (false, none))
    (hresp : response.hasField "results" = false) :
    run_search lookup true response save_outcome = .ok ⟨response, true, false⟩ := by
  simp [run_search, hmiss, hresp]

/-! ### Key-space facts

`_make_key` produces `{prefix}{type}:{identifier}`; keys of distinct
types never collide and result keys are injective in the identifier. -/

theorem result_key_inj {b : RedisStorageBackend} {x y : String}
    (h : make_key b "result" x = make_key b "result" y) : x = y := by
  have hd := congrArg String.data h
  simp [make_key, String.data_append] at hd
  exact String.ext hd

theorem query_key_ne_index_key (b : RedisStorageBackend) (sl : String) :
    make_key b "query" sl ≠ make_key b "index" "all" := by
  intro h
  have hd := congrArg String.data h
  simp [make_key, String.data_append] at hd

theorem result_key_ne_index_key (b : RedisStorageBackend) (x : String) :
    make_key b "result" x ≠ make_key b "index" "all" := by
  intro h
  have hd := congrArg String.data h
  simp [make_key, String.data_append] at hd

/-! ### Behaviour of the primitives on live records -/

/-- A `get` whose value is present (and unexpired) leaves the state
unchanged. -/
theorem rget_live_state {now : Int} {key : String} {s : RedisSt} {v : Json}
    (h : (rget now key s).1 = some v) : rget now key s = (some v, s) := by
  unfold rget at h ⊢
  cases hd : getA key s.data with
  | none => rw [hd] at h; simp at h
  | some w =>
    rw [hd] at h
    cases he : getA key s.expiry with
    | none => rw [he] at h; simp at h ⊢; exact h
    | some e =>
      rw [he] at h
      by_cases hlt : now > e
      · simp [hlt] at h
      · simp [hlt] at h ⊢
        exact h

/-- A present `get` implies the raw key is present. -/
theorem rget_some_getA {now : Int} {key : String} {s : RedisSt} {v : Json}
    (h : (rget now key s).1 = some v) : (getA key s.data).isSome = true := by
  unfold rget at h
  cases hd : getA key s.data with
  | none => rw [hd] at h; cases h
  | some w => simp

/-- `rget`'s result only depends on the data and expiry entries at its
key. -/
theorem rget_fst_congr {now : Int} {key : String} {s s' : RedisSt}
    (hd : getA key s'.data = getA key s.data)
    (he : getA key s'.expiry = getA key s.expiry) :
    (rget now key s').1 = (rget now key s).1 := by
  unfold rget
  rw [hd, he]
  cases getA key s.data with
  | none => rfl
  | some w =>
    cases getA key s.expiry with
    | none => rfl
    | some e => by_cases hlt : now > e <;> simp [hlt]

theorem rzrem_zsets_self (k m : String) (s : RedisSt) :
    getA k ((rzrem k m s).zsets)
      = Option.map (List.filter (fun p => p.1 ≠ m)) (getA k s.zsets) := by
  unfold rzrem
  cases h : getA k s.zsets with
  | none => simp [h]
  | some l => simp [h]

theorem rzrem_zsets_other {k k' : String} (h : k ≠ k') (m : String) (s : RedisSt) :
    getA k' ((rzrem k m s).zsets) = getA k' s.zsets := by
  unfold rzrem
  cases hz : getA k s.zsets with
  | none => rfl
  | some l => simpa using getA_setA_ne h _ s.zsets

theorem rzrem_data (k m : String) (s : RedisSt) : (rzrem k m s).data = s.data := by
  unfold rzrem
  cases hz : getA k s.zsets <;> rfl

theorem rzrem_expiry (k m : String) (s : RedisSt) :
    (rzrem k m s).expiry = s.expiry := by
  unfold rzrem
  cases hz : getA k s.zsets <;> rfl

/-! ### `delete_results` on a live record -/

theorem dropFromIndexes_data (b : RedisStorageBackend) (identifier query : String)
    (s : RedisSt) : (dropFromIndexes b identifier query s).data = s.data := by
  unfold dropFromIndexes
  by_cases hq : query ≠ "" <;> simp [hq, rzrem_data]

theorem dropFromIndexes_expiry (b : RedisStorageBackend) (identifier query : String)
    (s : RedisSt) : (dropFromIndexes b identifier query s).expiry = s.expiry := by
  unfold dropFromIndexes
  by_cases hq : query ≠ "" <;> simp [hq, rzrem_expiry]

theorem dropFromIndexes_global (b : RedisStorageBackend) (identifier query : String)
    (s : RedisSt) :
    getA (make_key b "index" "all") (dropFromIndexes b identifier query s).zsets
      = Option.map (List.filter (fun p => p.1 ≠ identifier))
          (getA (make_key b "index" "all") s.zsets) := by
  unfold dropFromIndexes
  by_cases hq : query ≠ ""
  · rw [if_pos hq,
      rzrem_zsets_other (query_key_ne_index_key b (slugify query)) identifier,
      rzrem_zsets_self]
  · rw [if_neg hq, rzrem_zsets_self]

/-- Shape of `delete_results` on a live record: it reports success, and
the resulting state is the index-dropped state with the record's data
and expiry entries removed. -/
theorem delete_results_live_eq {b : RedisStorageBackend} {now : Int}
    {identifier : String} {s : RedisSt} {record : Json}
    (hlive : (rget now (make_key b "result" identifier) s).1 = some record) :
    delete_results b now identifier s
      = (true,
         RedisSt.mk
           (delA (make_key b "result" identifier)
             (dropFromIndexes b identifier (queryOf record) s).data)
           (delA (make_key b "result" identifier)
             (dropFromIndexes b identifier (queryOf record) s).expiry)
           (dropFromIndexes b identifier (queryOf record) s).zsets) := by
  have hds : (getA (make_key b "result" identifier) s.data).isSome = true :=
    rget_some_getA hlive
  unfold delete_results get_results
  rw [rget_live_state hlive]
  unfold dropFromIndexes
  by_cases hq : queryOf record ≠ "" <;>
    simp [hq, rdelete, rzrem_data, hds]

/-- Deleting a live record succeeds. -/
theorem delete_results_live_fst {b : RedisStorageBackend} {now : Int}
    {identifier : String} {s : RedisSt} {record : Json}
    (hlive : (rget now (make_key b "result" identifier) s).1 = some record) :
    (delete_results b now identifier s).1 = true := by
  rw [delete_results_live_eq hlive]

/-- Deleting a live record filters its identifier out of the global
index (and touches no other entry of the global index). -/
theorem delete_results_live_global {b : RedisStorageBackend} {now : Int}
    {identifier : String} {s : RedisSt} {record : Json}
    (hlive : (rget now (make_key b "result" identifier) s).1 = some record) :
    getA (make_key b "index" "all") ((delete_results b now identifier s).2).zsets
      = Option.map (List.filter (fun p => p.1 ≠ identifier))
          (getA (make_key b "index" "all") s.zsets) := by
  rw [delete_results_live_eq hlive]
  exact dropFromIndexes_global b identifier (queryOf record) s

/-- Deleting one record leaves the data and expiry entries of every
other key untouched. -/
theorem delete_results_live_other {b : RedisStorageBackend} {now : Int}
    {identifier : String} {s : RedisSt} {record : Json} {key : String}
    (hlive : (rget now (make_key b "result" identifier) s).1 = some record)
    (hk : key ≠ make_key b "result" identifier) :
    getA key ((delete_results b now identifier s).2).data = getA key s.data ∧
    getA key ((delete_results b now identifier s).2).expiry = getA key s.expiry := by
  have hk' : make_key b "result" identifier ≠ key := fun h => hk h.symm
  rw [delete_results_live_eq hlive]
  constructor
  · show getA key (delA (make_key b "result" identifier)
      (dropFromIndexes b identifier (queryOf record) s).data) = getA key s.data
    rw [getA_delA_ne hk', dropFromIndexes_data]
  · show getA key (delA (make_key b "result" identifier)
      (dropFromIndexes b identifier (queryOf record) s).expiry) = getA key s.expiry
    rw [getA_delA_ne hk', dropFromIndexes_expiry]

/-! ### The cleanup loop -/

/-- Running `cleanup`'s loop over distinct identifiers that are all live
deletes every one of them: the count equals the number of identifiers
and the global index is left filtered of them all. -/
theorem cleanupLoop_spec (b : RedisStorageBackend) (now : Int) :
    ∀ (ids : List String) (s : RedisSt),
      ids.Nodup →
      (∀ identifier ∈ ids,
        ((rget now (make_key b "result" identifier) s).1).isSome = true) →
      (cleanupLoop b now ids s).1 = ids.length ∧
      getA (make_key b "index" "all") ((cleanupLoop b now ids s).2).zsets
        = Option.map (List.filter (fun p => decide (p.1 ∉ ids)))
            (getA (make_key b "index" "all") s.zsets) := by
  intro ids
  induction ids with
  | nil =>
    intro s _ _
    constructor
    · rfl
    · cases h : getA (make_key b "index" "all") s.zsets <;>
        simp [cleanupLoop, h, List.filter_true]
  | cons identifier rest ih =>
    intro s hnodup hlive
    obtain ⟨record, hrec⟩ := Option.isSome_iff_exists.mp
      (hlive identifier (List.mem_cons_self identifier rest))
    have hdel1 := delete_results_live_fst (b := b) hrec
    have hrestlive : ∀ y ∈ rest,
        ((rget now (make_key b "result" y) (delete_results b now identifier s).2).1).isSome
          = true := by
      intro y hy
      have hne : y ≠ identifier := by
        intro h; rw [h] at hy; exact (List.nodup_cons.mp hnodup).1 hy
      have hkne : make_key b "result" y ≠ make_key b "result" identifier :=
        fun h => hne (result_key_inj h)
      have hother := delete_results_live_other (b := b) hrec hkne
      rw [rget_fst_congr hother.1 hother.2]
      exact hlive y (List.mem_cons_of_mem identifier hy)
    have hglob := delete_results_live_global (b := b) hrec
    have ihres := ih (delete_results b now identifier s).2
      (List.nodup_cons.mp hnodup).2 hrestlive
    have hsplit : delete_results b now identifier s
        = (true, (delete_results b now identifier s).2) := by
      rw [← hdel1]
    have h1 : cleanupLoop b now (identifier :: rest) s
        = ((cleanupLoop b now rest (delete_results b now identifier s).2).1 + 1,
           (cleanupLoop b now rest (delete_results b now identifier s).2).2) := by
      conv_lhs => unfold cleanupLoop
      rw [hsplit]
    constructor
    · rw [h1]
      simp [ihres.1]
    · rw [h1]
      have h2 := ihres.2
      rw [hglob, Option.map_map] at h2
      rw [h2]
      cases hz : getA (make_key b "index" "all") s.zsets with
      | none => rfl
      | some l =>
        simp only [Option.map_some', Function.comp, List.filter_filter]
        congr 1
        apply List.filter_congr
        intro p _
        by_cases hp : p.1 = identifier <;> simp [hp]

/-- Listing against an empty global index returns no records. -/
theorem list_results_empty_index (b : RedisStorageBackend) (now : Int)
    (limit offset : Nat) (sF : RedisSt)
    (hF : getA (make_key b "index" "all") sF.zsets = some []) :
    (list_results b now limit offset none sF).1 = [] := by
  simp only [list_results, zrangebyscoreInf]
  rw [hF]
  simp [listLoop]

/-- C8: on a store whose global index holds only fresh records (every
score within `[0, now]`, every indexed identifier live, identifiers
distinct), `evict(0)` computes `cutoff = now - 0*86400 = now`, deletes
every indexed identifier, returns a count equal to the number of
records, and a subsequent `list(limit=10)` returns the empty sequence. -/
theorem C8_evict_zero_removes_all
    (b : RedisStorageBackend) (now now' : Int) (s : RedisSt)
    (gi : List (String × Int))
    (hgi : getA (make_key b "index" "all") s.zsets = some gi)
    (hnodup : (gi.map Prod.fst).Nodup)
    (hscore : ∀ p ∈ gi, 0 ≤ p.2 ∧ p.2 ≤ now)
    (hlive : ∀ p ∈ gi, ((rget now (make_key b "result" p.1) s).1).isSome = true) :
    (cleanup b now 0 s).1 = gi.length ∧
    (list_results b now' 10 0 none (cleanup b now 0 s).2).1 = [] := by
  have hcut : now - ((0 : Nat) : Int) * 24 * 60 * 60 = now := by push_cast; ring
  have hfilter : gi.filter (fun p => decide (0 ≤ p.2) && decide (p.2 ≤ now)) = gi :=
    List.filter_eq_self.mpr (fun p hp => by
      simp [(hscore p hp).1, (hscore p hp).2])
  have hrange : zrangebyscore (make_key b "index" "all") 0 now s = gi.map Prod.fst := by
    unfold zrangebyscore
    rw [hgi]
    simp only [Option.getD_some]
    rw [hfilter]
  have hclean : cleanup b now 0 s
      = if gi.map Prod.fst = [] then (0, s)
        else cleanupLoop b now (gi.map Prod.fst) s := by
    simp only [cleanup, hcut]
    rw [hrange]
  cases gi with
  | nil =>
    rw [hclean]
    exact ⟨rfl, list_results_empty_index b now' 10 0 s hgi⟩
  | cons p0 rest =>
    have hne : (p0 :: rest).map Prod.fst ≠ [] := by simp
    rw [hclean, if_neg hne]
    have hlive' : ∀ identifier ∈ (p0 :: rest).map Prod.fst,
        ((rget now (make_key b "result" identifier) s).1).isSome = true := by
      intro identifier hid
      obtain ⟨p, hp, hpe⟩ := List.mem_map.mp hid
      exact hpe ▸ hlive p hp
    have hspec := cleanupLoop_spec b now ((p0 :: rest).map Prod.fst) s hnodup hlive'
    refine ⟨hspec.1.trans (List.length_map _ _), ?_⟩
    have hzero : getA (make_key b "index" "all")
        ((cleanupLoop b now ((p0 :: rest).map Prod.fst) s).2).zsets = some [] := by
      rw [hspec.2, hgi]
      simp only [Option.map_some']
      congr 1
      refine List.filter_eq_nil_iff.mpr (fun p hp => ?_)
      simp only [decide_eq_true_eq, Decidable.not_not]
      exact List.mem_map_of_mem Prod.fst hp
    exact list_results_empty_index b now' 10 0 _ hzero

/-- C8 (witness): after saving three records, `evict(0)` at time 10
returns 3 and a subsequent `list(limit=10)` returns the empty sequence. -/
theorem C8_evict_zero_removes_all_witness :
    (cleanup bDefault 10 0 sC8).1 = 3 ∧
    (list_results bDefault 10 10 0 none (cleanup bDefault 10 0 sC8).2).1 = [] := by
  have h := C8_evict_zero_removes_all bDefault 10 10 sC8
    [("20250101-120001_alpha", 1), ("20250101-120002_beta", 2),
     ("20250101-120003_gamma", 3)]
    (by decide) (by decide) (by decide) (by decide)
  exact ⟨h.1.trans rfl, h.2⟩

/-- C7: round-trip — fetching the identifier returned by
`save_results(q, p)` yields the stored record, whose `query` field is `q`
and whose `results` field is `p`; and the identifier has the form
`{timestamp:YYYYMMDD-HHMMSS}_{slug of q}`.  The fetch must happen within
the configured TTL window (`save_results` sets the expiry to
`now + ttl_days*86400` whenever `ttl_days > 0`). -/
theorem C7_save_fetch_roundtrip
    (b : RedisStorageBackend) (dt : DateTime) (now now' : Int)
    (q : String) (p : Json) (s : RedisSt)
    (httl : 0 < b.ttl_days)
    (hfresh : now' ≤ now + (b.ttl_days : Int) * 24 * 60 * 60) :
    (save_results b dt now q p s).1 = fmtTimestamp dt ++ "_" ++ slugify q ∧
    (get_results b now' (save_results b dt now q p s).1
        (save_results b dt now q p s).2).1
      = some (Json.obj [("query", .str q), ("timestamp", .str (isoTimestamp dt)),
          ("results", p)]) ∧
    (Json.obj [("query", .str q), ("timestamp", .str (isoTimestamp dt)),
        ("results", p)]).getField "query" = some (.str q) ∧
    (Json.obj [("query", .str q), ("timestamp", .str (isoTimestamp dt)),
        ("results", p)]).getField "results" = some p := by
  have hlt : ¬ now' > now + (b.ttl_days : Int) * 24 * 60 * 60 := not_lt.mpr hfresh
  refine ⟨rfl, ?_, by simp [Json.getField, getA], by simp [Json.getField, getA]⟩
  simp [save_results, get_results, rget, rset, rexpire, rzadd, httl, hlt]

/-- C7 (witness): saving `"python programming"` with payload
`{"results": []}` at time 100 and fetching at time 200 returns the
record; the identifier is `20250101-120000_python-programming`. -/
theorem C7_save_fetch_roundtrip_witness :
    (save_results bDefault dt0 100 "python programming"
        (Json.obj [("results", Json.arr [])]) RedisSt.empty).1
      = "20250101-120000_python-programming" ∧
    (get_results bDefault 200
        (save_results bDefault dt0 100 "python programming"
          (Json.obj [("results", Json.arr [])]) RedisSt.empty).1
        (save_results bDefault dt0 100 "python programming"
          (Json.obj [("results", Json.arr [])]) RedisSt.empty).2).1
      = some (Json.obj [("query", .str "python programming"),
          ("timestamp", .str (isoTimestamp dt0)),
          ("results", Json.obj [("results", Json.arr [])])]) := by
  have h := C7_save_fetch_roundtrip bDefault dt0 100 200 "python programming"
    (Json.obj [("results", Json.arr [])]) RedisSt.empty (by decide) (by decide)
  exact ⟨h.1.trans (by decide), h.2.1⟩

/-- C10 (witness): instantiates the pass-through theorem on an empty
cache and the response `{"answer": "x"}`, which has no `"results"` key. -/
theorem C10_no_results_key_passthrough_witness :
    run_search (.ok []) true (Json.obj [("answer", .str "x")]) (.ok ())
      = .ok ⟨Json.obj [("answer", .str "x")], true, false⟩ :=
  C10_no_results_key_passthrough (.ok []) (Json.obj [("answer", .str "x")])
    (.ok ()) rfl rfl

end SearchClient
